import Mathlib

/-!
Verification of the tab-tree DOM cache module
(`src/webextensions/sidebar/dom-cache.js`) of the treestyletab repository.

The JavaScript source is shallowly embedded: pure functions become Lean
functions, the DOM-mutating restoration routine becomes an explicit
state-passing function over a small document model, JavaScript numbers that
can be `NaN` become `Option Int`, and code paths that throw become explicit
error results.  Each definition keeps the name of the source function it
embeds where Lean allows it.
-/

namespace DomCache

/-! ## JavaScript string primitives -/

/-- Index (from the head of the list) of the first position at which `pat`
occurs as a contiguous block, scanning left to right; `none` when `pat`
occurs nowhere.  This models the search performed by JavaScript
`String.prototype.indexOf`. -/
def firstOcc (pat : List Char) : List Char → Option Nat
  | [] => if pat.isPrefixOf [] then some 0 else none
  | c :: t => if pat.isPrefixOf (c :: t) then some 0 else (firstOcc pat t).map (· + 1)

/-- JavaScript `hay.indexOf(pat)`: position of the first occurrence of `pat`
in `hay`, or `-1` when there is none.  (`''.indexOf('')` is `0`, as in JS.) -/
def jsStringIndexOf (hay pat : String) : Int :=
  match firstOcc pat.data hay.data with
  | some i => (i : Int)
  | none => -1

/-! ## The signature codec -/

/-- The `signatures` argument of `matcheSignatures` (source lines 45–51):
an object with `cached` and `actual` string fields. -/
structure Signatures where
  cached : String
  actual : String
deriving DecidableEq, Repr

/-- Source lines 45–51:

```js
export function matcheSignatures(signatures) {
  return (
    signatures.actual &&
    signatures.cached &&
    signatures.actual.indexOf(signatures.cached) + signatures.cached.length == signatures.actual.length
  );
}
```

The `&&` chain is modelled by Boolean conjunction of the JS truthiness of
each operand (a string is truthy iff non-empty; the final `==` yields a
boolean). -/
def matcheSignatures (signatures : Signatures) : Bool :=
  (signatures.actual != "") &&
  (signatures.cached != "") &&
  (jsStringIndexOf signatures.actual signatures.cached + (signatures.cached.length : Int)
    == (signatures.actual.length : Int))

/-! ## Tab records and `getWindowSignature` -/

/-- A browser tab record as consumed by `getWindowSignature` (source lines
28–31): `openerTabId` is `none` when the tab has no opener (`undefined` in
JS). -/
structure TabRecord where
  id : Int
  openerTabId : Option Int
  cookieStoreId : String
  incognito : Bool
  pinned : Bool
deriving DecidableEq

/-- Index of the first element satisfying `p`, scanning left to right;
used to model `Array.prototype.indexOf`. -/
def jsFindIdx (p : α → Bool) : List α → Option Nat
  | [] => none
  | a :: t => if p a then some 0 else (jsFindIdx p t).map (· + 1)

/-- JavaScript `tabIds.indexOf(x)` for an array of (non-`NaN`) numbers. -/
def jsArrayIndexOf (l : List Int) (x : Int) : Int :=
  match jsFindIdx (fun a => a == x) l with
  | some i => (i : Int)
  | none => -1

/-- The parent component of one signature line (source line 30):
`tab.openerTabId ? tabIds.indexOf(tab.openerTabId) : -1`.  A JS number is
truthy iff it is neither `0` nor `NaN`, so an absent opener and an opener id
of `0` both take the `-1` branch. -/
def openerIndex (tabIds : List Int) (openerTabId : Option Int) : Int :=
  match openerTabId with
  | some n => if n ≠ 0 then jsArrayIndexOf tabIds n else -1
  | none => -1

/-- One line of the window signature; mirrors the template literal on source
line 30: `${...},${tab.cookieStoreId},${tab.incognito},${tab.pinned}`. -/
def windowSignatureLine (tabIds : List Int) (tab : TabRecord) : String :=
  toString (openerIndex tabIds tab.openerTabId) ++ "," ++ tab.cookieStoreId ++ "," ++
    toString tab.incognito ++ "," ++ toString tab.pinned

/-- Source lines 28–31:

```js
export function getWindowSignature(tabs) {
  const tabIds = tabs.map(tab => tab.id);
  return tabs.map(tab => `${tab.openerTabId ? tabIds.indexOf(tab.openerTabId) : -1 },...`).join('\n');
}
``` -/
def getWindowSignature (tabs : List TabRecord) : String :=
  let tabIds := tabs.map (·.id)
  String.intercalate "\n" (tabs.map (fun tab => windowSignatureLine tabIds tab))

/-! ## `signatureFromTabsCache` -/

/-- Numeric value of a list of decimal digit characters. -/
def digitsVal (l : List Char) : Nat :=
  l.foldl (fun acc c => 10 * acc + (c.toNat - '0'.toNat)) 0

/-- Longest prefix of decimal digits, `none` when there is none. -/
def parseIntDigits (l : List Char) : Option Nat :=
  let digits := l.takeWhile (fun c => c.isDigit)
  if digits.isEmpty then none else some (digitsVal digits)

/-- JavaScript `parseInt(s)` with radix 10: skip leading whitespace, read an
optional sign, then the longest prefix of decimal digits; the result is
`NaN` (modeled as `none`) when no digit follows.  (A hexadecimal `0x` prefix
is not modeled; the attribute values parsed by the source are decimal tab
ids.) -/
def parseIntJS (s : String) : Option Int :=
  match s.data.dropWhile (fun c => c.isWhitespace) with
  | '-' :: t => (parseIntDigits t).map (fun n => -(n : Int))
  | '+' :: t => (parseIntDigits t).map (fun n => (n : Int))
  | t => (parseIntDigits t).map (fun n => (n : Int))

/-- One `<li ...>...</li>` fragment of a cached markup blob, abstracted to
the attributes the parsing regexes of `signatureFromTabsCache` (source lines
54–59) inspect: the tab-id attribute (`Constants.kAPI_TAB_ID`), the `class`
attribute and the parent attribute (`Constants.kPARENT`).  `none` models an
absent attribute. -/
structure CachedTabElement where
  idAttr : Option String
  classAttr : Option String
  parentAttr : Option String
deriving DecidableEq

/-- Result of matching `attr="([^"]+)"` against an element: the captured
group, or `none` when the regex does not match.  Attribute values contain no
`"`, so the `[^"]+` group matches exactly when the attribute is present with
a non-empty value. -/
def attrMatch (v : Option String) : Option String :=
  v.bind (fun s => if s = "" then none else some s)

/-- Maximal runs of characters satisfying `keep`, in order.  `acc` holds the
current run reversed. -/
def splitRuns (keep : Char → Bool) : List Char → List Char → List (List Char)
  | [], acc => if acc.isEmpty then [] else [acc.reverse]
  | c :: rest, acc =>
    if keep c then splitRuns keep rest (c :: acc)
    else if acc.isEmpty then splitRuns keep rest []
    else acc.reverse :: splitRuns keep rest []

def isWordChar (c : Char) : Bool := c.isAlphanum || c == '_'

/-- Models `/\bword\b/.test(classes)` for a word made of word characters only:
true iff `word` is one of the maximal word-character runs of `classes`. -/
def wordTest (w : String) (classes : String) : Bool :=
  (splitRuns isWordChar classes.data []).contains w.data

/-- Models `classes.match(/\bcontextual-identity-[^\s]+\b/)` (source lines 55 and
65), modeled at the level the code consumes it: `some g₁` when the regex
matches, where `g₁` is capture group 1.  The source regex has **no**
capturing group, so group 1 is always absent (`none`).  The match itself is
approximated as: some maximal non-whitespace run of `classes` strictly
extends the prefix `contextual-identity-`; the approximation is immaterial
because the code only ever reads the absent group 1. -/
def contextualIdentityMatch (classes : String) : Option (Option String) :=
  if (splitRuns (fun c => !c.isWhitespace) classes.data []).any
      (fun t => "contextual-identity-".data.isPrefixOf t &&
        decide ("contextual-identity-".data.length < t.length))
  then some none
  else none

/-- Source line 69: `cookieStoreId && cookieStoreId[1] ||
'contextual-identity-firefox-default'` — JS truthiness of the match result,
then of its capture group 1, then the default. -/
def cookieStoreIdValue (m : Option (Option String)) : String :=
  match m with
  | some (some s) => if s = "" then "contextual-identity-firefox-default" else s
  | _ => "contextual-identity-firefox-default"

/-- The object built for one matched element (source lines 67–73).  `id` and
a present parent attribute's value are JS numbers that may be `NaN`
(`Option Int`, `none` = `NaN`); `parentId` is `null` (outer `none`) when the
parent attribute does not match. -/
structure ParsedCachedTab where
  id : Option Int
  cookieStoreId : String
  parentId : Option (Option Int)
  incognito : Bool
  pinned : Bool
deriving DecidableEq

/-- Source lines 62–73 for one matched element.  `matched.match(idMatcher)[1]`
and `matched.match(classesMatcher)[1]` dereference a possibly-`null` match
result, so a missing or empty id or class attribute throws a `TypeError`,
modeled as `none`. -/
def parseCachedTab (e : CachedTabElement) : Option ParsedCachedTab :=
  match attrMatch e.idAttr with
  | none => none
  | some idStr =>
    match attrMatch e.classAttr with
    | none => none
    | some classes =>
      some {
        id := parseIntJS idStr
        cookieStoreId := cookieStoreIdValue (contextualIdentityMatch classes)
        parentId := (attrMatch e.parentAttr).map (fun p => parseIntJS p)
        incognito := wordTest "incognito" classes
        pinned := wordTest "pinned" classes }

/-- JavaScript `tabIds.indexOf(n)` over an array of numbers some of which
may be `NaN`: strict equality never holds for `NaN`, so `NaN` entries are
skipped.  (Line 75 only reaches `indexOf` with a truthy, hence non-`NaN`,
parent id.) -/
def jsNumIndexOf (l : List (Option Int)) (n : Int) : Int :=
  match jsFindIdx (fun a => a == some n) l with
  | some i => (i : Int)
  | none => -1

/-- The parent component of one parsed signature line (source line 75):
`tab.parentId ? tabIds.indexOf(tab.parentId) : -1`; `null`, `NaN` and `0`
are all falsy. -/
def parsedParentIndex (tabIds : List (Option Int)) (parentId : Option (Option Int)) : Int :=
  match parentId with
  | some (some n) => if n ≠ 0 then jsNumIndexOf tabIds n else -1
  | _ => -1

/-- One line of the signature rebuilt from the cache (source line 75). -/
def parsedSignatureLine (tabIds : List (Option Int)) (t : ParsedCachedTab) : String :=
  toString (parsedParentIndex tabIds t.parentId) ++ "," ++ t.cookieStoreId ++ "," ++
    toString t.incognito ++ "," ++ toString t.pinned

/-- The `.map` over matched elements (source lines 61–74): parses each
element in order; a `TypeError` thrown on any element (`none`) aborts the
whole map. -/
def parseCachedTabs : List CachedTabElement → Option (List ParsedCachedTab)
  | [] => some []
  | e :: rest =>
    match parseCachedTab e with
    | none => none
    | some t => (parseCachedTabs rest).map (fun ts => t :: ts)

/-- Source lines 53–76, over the list of `<li>` fragments matched out of the
blob by `cachedTabs.match(/(<li[^>]*>[\w\W]+?<\/li>)/g) || []`.  The result
is `none` when parsing an element throws (missing/empty id or class
attribute); otherwise the newline-joined rebuilt signature, whose id →
index resolution uses the `tabIds` collected during parsing (= the parsed
elements' ids, in order). -/
def signatureFromTabsCache (cachedTabs : List CachedTabElement) : Option String :=
  match parseCachedTabs cachedTabs with
  | none => none
  | some tabs =>
    let tabIds := tabs.map (·.id)
    some (String.intercalate "\n" (tabs.map (fun t => parsedSignatureLine tabIds t)))

/-- Modelled from the spec: the markup serialization step is not part of
this repository excerpt (spec §3 "written by a (not-in-scope) serialization
step" and the grammar of §6).  Each tab record is written as an element
carrying its id in the tab-id attribute, a class list naming its
`cookieStoreId` behind the conventional `contextual-identity-` prefix plus
`incognito`/`pinned` flag classes, and the raw opener tab id in the parent
attribute when an opener is present. -/
def serializeTab (t : TabRecord) : CachedTabElement where
  idAttr := some (toString t.id)
  classAttr := some ("tab contextual-identity-" ++ t.cookieStoreId ++
    (if t.incognito then " incognito" else "") ++
    (if t.pinned then " pinned" else ""))
  parentAttr := t.openerTabId.map (fun p => toString p)

/-! ## The DOM restoration engine -/

/-- A live tab element, identified by the tab id its lookup attribute
carries (the id by which `Tab.get(id).$TST.element` finds it). -/
structure TabElement where
  tabId : Int
deriving DecidableEq

/-- The window's container element with its child tab elements. -/
structure Container where
  children : List TabElement
deriving DecidableEq

/-- The part of the live document that `restoreTabsFromCacheInternal` reads
or mutates: the container of the window being restored
(`TabsStore.windows.get(params.windowId).element`), `none` when the window
has no container in the document. -/
structure Doc where
  container : Option Container
deriving DecidableEq

/-- A cached markup blob, abstracted to its top-level structure: the `<li>`
fragments (`cache.match(/<li/g)` counts them) inside the container wrapper
element required by the persisted grammar (spec §6). -/
structure CacheBlob where
  items : List TabElement
deriving DecidableEq

/-- The `params` object of `restoreTabsFromCacheInternal` (source line 78);
`offset` stands for `params.offset || 0`. -/
structure RestoreParams where
  windowId : Int
  tabs : List TabRecord
  cache : CacheBlob
  offset : Nat
  shouldUpdate : Bool
deriving DecidableEq

/-- Outcome of a call to `restoreTabsFromCacheInternal`: a normal return
with the restored elements, or an exception propagating to the caller; in
both cases paired with the document state left behind. -/
inductive RestoreResult where
  | ok (elements : List TabElement) (doc : Doc)
  | thrown (doc : Doc)
deriving DecidableEq

/-- Models `Tab.get(id).$TST.element` located inside the container: the position
of the element bound to tab `id` among the container's children, `none`
when that tab's element is missing from the live DOM.  (Modelled from the
spec for the external store: §6's `getTabById(id) -> TabHandle?` yields
nothing for an unknown id, and the source dereferences `.$TST` on that
result without a null check.) -/
def findTabIndex (children : List TabElement) (id : Int) : Option Nat :=
  jsFindIdx (fun e => e.tabId == id) children

/-- JavaScript `Array.slice(arr, -n)`: the last `n` elements (all of them
when `n ≥ length`). -/
def jsSliceLast (l : List α) (n : Nat) : List α := l.drop (l.length - n)

/-- Source lines 172–213, `fixupTabsRestoredFromCache`, reduced to its data
effect: throws (`none`) when the paired lengths disagree (line 174);
otherwise walks the pairs, re-binding each element to its record and
stamping `tab.$TST.setAttribute(Constants.kAPI_TAB_ID, tab.id || -1)`
(line 190 — note the JS `||`: a tab id of `0` is stamped as `-1`).
Progress reporting is modeled separately by `fixupProgress`. -/
def fixupTabsRestoredFromCache (tabElements : List TabElement)
    (tabs : List TabRecord) : Option (List TabElement) :=
  if tabElements.length ≠ tabs.length then none
  else some ((tabElements.zip tabs).map
    (fun (p : TabElement × TabRecord) =>
      ({ tabId := if p.2.id ≠ 0 then p.2.id else -1 } : TabElement)))

/-- The progress value reported by `UserOperationBlocker.setProgress` on
source lines 193 and 207: `Math.round(++count / maxCount * 33) + 33`, as a
function of the shared counter value `count` after its increment.
`Math.round` always sees a non-negative argument here, where it equals
`⌊q + 1/2⌋`. -/
def fixupProgress (count maxCount : Nat) : Int :=
  ⌊(count : ℚ) / (maxCount : ℚ) * 33 + 1 / 2⌋ + 33

/-- The tail of `restoreTabsFromCacheInternal` after the DOM splice, source
lines 140–163: the count check (lines 141–145: on mismatch, remove the
container — the whole pre-existing one in tail mode, the newly inserted one
in full mode — and return `[]`), then the detach → fixup → reattach
sequence (lines 146–159; a throw inside fixup is logged and rethrown with
the container left detached).  `prefixChildren` are the container children
preceding the restored range (empty in full-restoration mode). -/
def restorePostProcess (prefixChildren tabElements : List TabElement)
    (tabs : List TabRecord) : RestoreResult :=
  if tabElements.length ≠ tabs.length then
    .ok [] { container := none }
  else
    match fixupTabsRestoredFromCache tabElements tabs with
    | none => .thrown { container := none }
    | some fixedElements =>
      .ok fixedElements { container := some { children := prefixChildren ++ fixedElements } }

/-- Source lines 78–164, `restoreTabsFromCacheInternal`.

Mode A (`offset > 0`, tail restoration): a missing container or one with at
most `offset` children returns `[]` with the document untouched (lines
86–90); then the range from the element of `tabs[0]` (the record at
position `offset`) to the element of the last record is selected —
`Tab.get(...).$TST` throws a `TypeError` when either boundary tab is
missing from the live DOM (lines 96–97, before any mutation; an empty
`tabs` already throws at the `tabs[0].id` on line 92) — and its contents
deleted (line 98; a reversed range, end before start, collapses and
deletes nothing); `params.cache.match(/<li/g)` is `null` for a cache with
no `<li>`, so `.length` on it throws *after* the deletion (lines 104–105);
the cache items (wrapper tags stripped) are appended at the container end
(lines 108–113) and the last `matched.length` children become the restored
set (line 114).

Mode B (`offset == 0`, full restoration): any existing container is
discarded (lines 117–118), the blob's wrapper element becomes the new
container holding the blob's items and is inserted into the document with
the window's identity attributes (lines 122–134).

Both modes finish with `restorePostProcess` (lines 140–163). -/
def restoreTabsFromCacheInternal (params : RestoreParams) (doc : Doc) : RestoreResult :=
  let tabs := params.tabs.drop params.offset
  if params.offset > 0 then
    match doc.container with
    | none => .ok [] doc
    | some c =>
      if c.children.length ≤ params.offset then .ok [] doc
      else
        match tabs.head?, tabs.getLast? with
        | some t0, some tLast =>
          match findTabIndex c.children t0.id, findTabIndex c.children tLast.id with
          | some i, some j =>
            let deleted :=
              if i ≤ j then c.children.take i ++ c.children.drop (j + 1) else c.children
            if params.cache.items.isEmpty then
              .thrown { container := some { children := deleted } }
            else
              let spliced := deleted ++ params.cache.items
              restorePostProcess (spliced.take (spliced.length - params.cache.items.length))
                (jsSliceLast spliced params.cache.items.length) tabs
          | _, _ => .thrown doc
        | _, _ => .thrown doc
  else
    restorePostProcess [] params.cache.items tabs

/-! ### Lemmas about `firstOcc` -/

theorem firstOcc_eq_some_iff {pat hay : List Char} {j : Nat} :
    firstOcc pat hay = some j ↔
      (pat <+: hay.drop j ∧ ∀ k, k < j → ¬ pat <+: hay.drop k) := by
  induction hay generalizing j with
  | nil =>
    simp only [firstOcc]
    by_cases h : pat.isPrefixOf []
    · simp only [if_pos h]
      rw [List.isPrefixOf_iff_prefix] at h
      constructor
      · rintro ⟨rfl⟩
        exact ⟨by simpa using h, fun k hk => absurd hk (Nat.not_lt_zero k)⟩
      · rintro ⟨h1, h2⟩
        by_contra hne
        have hj : 0 < j := Nat.pos_of_ne_zero (fun h0 => hne (by rw [h0]))
        exact h2 0 hj (by simpa using h)
    · simp only [if_neg h]
      rw [List.isPrefixOf_iff_prefix] at h
      constructor
      · intro hc
        exact absurd hc (by simp)
      · rintro ⟨h1, _⟩
        exact absurd (by simpa using h1) h
  | cons c t ih =>
    simp only [firstOcc]
    by_cases h : pat.isPrefixOf (c :: t)
    · simp only [if_pos h]
      rw [List.isPrefixOf_iff_prefix] at h
      constructor
      · rintro ⟨rfl⟩
        exact ⟨by simpa using h, fun k hk => absurd hk (Nat.not_lt_zero k)⟩
      · rintro ⟨h1, h2⟩
        by_contra hne
        have hj : 0 < j := Nat.pos_of_ne_zero (fun h0 => hne (by rw [h0]))
        exact h2 0 hj (by simpa using h)
    · simp only [if_neg h]
      rw [List.isPrefixOf_iff_prefix] at h
      constructor
      · intro hm
        rcases Option.map_eq_some'.mp hm with ⟨j', hj', rfl⟩
        rcases ih.mp hj' with ⟨h1, h2⟩
        refine ⟨by simpa using h1, ?_⟩
        intro k hk
        match k with
        | 0 => simpa using h
        | k + 1 =>
          have : k < j' := Nat.lt_of_succ_lt_succ hk
          simpa using h2 k this
      · rintro ⟨h1, h2⟩
        match j with
        | 0 => exact absurd (by simpa using h1) h
        | j + 1 =>
          have hj' : firstOcc pat t = some j := by
            apply ih.mpr
            refine ⟨by simpa using h1, ?_⟩
            intro k hk
            have := h2 (k + 1) (Nat.succ_lt_succ hk)
            simpa using this
          rw [hj']
          rfl

theorem firstOcc_eq_none_iff {pat hay : List Char} :
    firstOcc pat hay = none ↔ ∀ k, ¬ pat <+: hay.drop k := by
  induction hay with
  | nil =>
    simp only [firstOcc]
    by_cases h : pat.isPrefixOf []
    · simp only [if_pos h]
      rw [List.isPrefixOf_iff_prefix] at h
      constructor
      · intro hc
        exact absurd hc (by simp)
      · intro h2
        exact absurd (by simpa using h) (h2 0)
    · simp only [if_neg h]
      rw [List.isPrefixOf_iff_prefix] at h
      constructor
      · intro _ k
        simpa using h
      · intro _
        trivial
  | cons c t ih =>
    simp only [firstOcc]
    by_cases h : pat.isPrefixOf (c :: t)
    · simp only [if_pos h]
      rw [List.isPrefixOf_iff_prefix] at h
      constructor
      · intro hc
        exact absurd hc (by simp)
      · intro h2
        exact absurd (by simpa using h) (h2 0)
    · simp only [if_neg h]
      rw [List.isPrefixOf_iff_prefix] at h
      constructor
      · intro hm
        have hnone : firstOcc pat t = none := by
          cases he : firstOcc pat t with
          | none => rfl
          | some j => rw [he] at hm; exact absurd hm (by simp)
        intro k
        match k with
        | 0 => simpa using h
        | k + 1 => simpa using ih.mp hnone k
      · intro h2
        have : firstOcc pat t = none := by
          apply ih.mpr
          intro k
          simpa using h2 (k + 1)
        rw [this]
        rfl

theorem string_eq_empty_iff {s : String} : s = "" ↔ s.data = [] := by
  constructor
  · rintro rfl; rfl
  · intro h
    cases s
    simp only [String.data] at h
    rw [h]

theorem string_length_eq {s : String} : s.length = s.data.length := rfl

theorem suffix_of_prefix_drop {pat hay : List Char} {j : Nat}
    (h1 : pat <+: hay.drop j) (h2 : j + pat.length = hay.length) :
    pat = hay.drop j ∧ pat <:+ hay := by
  have hlen : (hay.drop j).length = pat.length := by
    rw [List.length_drop]
    omega
  have heq : pat = hay.drop j := h1.eq_of_length hlen.symm
  exact ⟨heq, heq ▸ List.drop_suffix j hay⟩

theorem prefix_drop_of_suffix {pat hay : List Char} (h : pat <:+ hay) :
    pat.length ≤ hay.length ∧ pat <+: hay.drop (hay.length - pat.length) := by
  rcases h with ⟨t, rfl⟩
  have hl : (t ++ pat).length = t.length + pat.length := List.length_append t pat
  refine ⟨by omega, ?_⟩
  have : (t ++ pat).length - pat.length = t.length := by omega
  rw [this, List.drop_left]

theorem jsStringIndexOf_eq_of_some {hay pat : String} {j : Nat}
    (h : firstOcc pat.data hay.data = some j) : jsStringIndexOf hay pat = (j : Int) := by
  unfold jsStringIndexOf
  rw [h]

theorem jsStringIndexOf_eq_of_none {hay pat : String}
    (h : firstOcc pat.data hay.data = none) : jsStringIndexOf hay pat = -1 := by
  unfold jsStringIndexOf
  rw [h]

/-- Exact characterization of the arithmetic test inside `matcheSignatures`:
`hay.indexOf(pat) + pat.length == hay.length` holds exactly when the first
occurrence of `pat` in `hay` is the trailing slice of `hay`, or (an artifact
of `indexOf` returning `-1`) when `pat` does not occur in `hay` at all and is
exactly one character longer than `hay`. -/
theorem jsStringIndexOf_add_length_eq_iff (hay pat : String) :
    jsStringIndexOf hay pat + (pat.length : Int) = (hay.length : Int) ↔
      ((pat.data <:+ hay.data ∧
          ∀ k, k < hay.length - pat.length → ¬ pat.data <+: hay.data.drop k) ∨
       ((∀ k, ¬ pat.data <+: hay.data.drop k) ∧ pat.length = hay.length + 1)) := by
  have e1 : pat.length = pat.data.length := string_length_eq
  have e2 : hay.length = hay.data.length := string_length_eq
  cases h : firstOcc pat.data hay.data with
  | some j =>
    rw [jsStringIndexOf_eq_of_some h]
    rcases firstOcc_eq_some_iff.mp h with ⟨hocc, hmin⟩
    constructor
    · intro heq
      have hj : j + pat.data.length = hay.data.length := by omega
      rcases suffix_of_prefix_drop hocc hj with ⟨_, hsuf⟩
      left
      refine ⟨hsuf, ?_⟩
      intro k hk
      apply hmin
      omega
    · rintro (⟨hsuf, hmin'⟩ | ⟨hno, _⟩)
      · rcases prefix_drop_of_suffix hsuf with ⟨hle, hpre⟩
        have h1 : ¬ j < hay.length - pat.length := fun hlt => hmin' j hlt hocc
        have h2 : ¬ hay.data.length - pat.data.length < j :=
          fun hlt => hmin _ hlt hpre
        omega
      · exact absurd hocc (hno j)
  | none =>
    rw [jsStringIndexOf_eq_of_none h]
    have hno := firstOcc_eq_none_iff.mp h
    constructor
    · intro heq
      right
      exact ⟨hno, by omega⟩
    · rintro (⟨hsuf, _⟩ | ⟨_, hlen⟩)
      · rcases prefix_drop_of_suffix hsuf with ⟨_, hpre⟩
        exact absurd hpre (hno _)
      · omega

/-- Full truthiness characterization of `matcheSignatures`. -/
theorem matcheSignatures_characterization (s : Signatures) :
    matcheSignatures s = true ↔
      s.cached ≠ "" ∧ s.actual ≠ "" ∧
        ((s.cached.data <:+ s.actual.data ∧
            ∀ k, k < s.actual.length - s.cached.length →
              ¬ s.cached.data <+: s.actual.data.drop k) ∨
         ((∀ k, ¬ s.cached.data <+: s.actual.data.drop k) ∧
            s.cached.length = s.actual.length + 1)) := by
  unfold matcheSignatures
  rw [Bool.and_eq_true, Bool.and_eq_true, bne_iff_ne, bne_iff_ne, beq_iff_eq]
  rw [jsStringIndexOf_add_length_eq_iff]
  tauto

/-- C1.  The claim states that `matcheSignatures` accepts exactly the pairs
where both signatures are non-empty and `actual` ends with `cached`.  That is
false in both directions (see the counterexample); what the code actually
computes is: both strings non-empty, and either the *first* occurrence of
`cached` in `actual` is the trailing slice of `actual`, or — an artifact of
`indexOf` returning `-1` — `cached` does not occur in `actual` at all and is
exactly one character longer than `actual`. -/
theorem claim_C1_matcheSignatures_first_occurrence (s : Signatures) :
    matcheSignatures s = true ↔
      s.cached ≠ "" ∧ s.actual ≠ "" ∧
        ((s.cached.data <:+ s.actual.data ∧
            ∀ k, k < s.actual.length - s.cached.length →
              ¬ s.cached.data <+: s.actual.data.drop k) ∨
         ((∀ k, ¬ s.cached.data <+: s.actual.data.drop k) ∧
            s.cached.length = s.actual.length + 1)) :=
  matcheSignatures_characterization s

/-- C1, counterexample to the claim as stated: with `cached = "a"` and
`actual = "aa"` both signatures are non-empty and `actual` ends with
`cached` (`"aa" = "a" ++ "a"`), yet `matcheSignatures` returns `false`,
because the first occurrence of `"a"` in `"aa"` is at index 0, and
`0 + 1 ≠ 2`. -/
theorem claim_C1_counterexample :
    matcheSignatures { cached := "a", actual := "aa" } = false ∧
      "a".data <:+ "aa".data ∧ "a" ≠ "" ∧ "aa" ≠ "" := by
  refine ⟨by decide, ⟨"a".data, by decide⟩, by decide, by decide⟩

/-- C7, counterexample to the claim as stated: with the non-empty signature
`S = "a"` and the extra line `"b"`, the claim asserts that
`matcheSignatures` on `cached = S`, `actual = S + "\n" + extra` returns
true; it returns `false`. -/
theorem claim_C7_counterexample :
    matcheSignatures { cached := "a", actual := "a\nb" } = false ∧
      ("a" : String) ≠ "" ∧ ("a\nb" : String) = "a" ++ "\n" ++ "b" := by
  refine ⟨by decide, by decide, by decide⟩

/-- C7, amended.  The claim states that an `actual` signature extending
`cached` with *trailing* lines is compatible; in fact `matcheSignatures` then always
returns `false`: the first occurrence of `cached` in `cached ++ "\n" ++
extra` starts at index 0 and therefore ends before the end of `actual`.
(An extension by *leading* lines, placing `cached` as the trailing slice, is
what the code accepts, per the C1 characterization.) -/
theorem claim_C7_trailing_extension_never_matches (S extra : String) :
    matcheSignatures { cached := S, actual := S ++ "\n" ++ extra } = false := by
  by_cases hS : S = ""
  · subst hS
    unfold matcheSignatures
    simp
  · unfold matcheSignatures
    have hidx : jsStringIndexOf (S ++ "\n" ++ extra) S = 0 := by
      unfold jsStringIndexOf
      have hpre : S.data.isPrefixOf (S ++ "\n" ++ extra).data = true := by
        rw [List.isPrefixOf_iff_prefix, String.data_append, String.data_append,
          List.append_assoc]
        exact List.prefix_append S.data _
      cases hd : (S ++ "\n" ++ extra).data with
      | nil =>
        rw [hd] at hpre
        rw [List.isPrefixOf_iff_prefix] at hpre
        have : S.data = [] := by simpa using hpre
        exact absurd (string_eq_empty_iff.mpr this) hS
      | cons c t =>
        rw [hd] at hpre
        simp only [firstOcc, hpre, if_pos]
        rfl
    rw [hidx]
    have hlen : (S ++ "\n" ++ extra).length = S.length + 1 + extra.length := by
      rw [String.length_append, String.length_append]
      have : "\n".length = 1 := rfl
      omega
    have : ((0 : Int) + (S.length : Int) == ((S ++ "\n" ++ extra).length : Int)) = false := by
      rw [beq_eq_false_iff_ne]
      rw [hlen]
      push_cast
      omega
    rw [this]
    simp

/-! ### Lemmas about indices, digits and parsing -/

theorem jsFindIdx_lt_length {p : α → Bool} :
    ∀ {l : List α} {i : Nat}, jsFindIdx p l = some i → i < l.length := by
  intro l
  induction l with
  | nil => intro i h; exact absurd h (by simp [jsFindIdx])
  | cons a t ih =>
    intro i h
    rw [jsFindIdx] at h
    by_cases hp : p a
    · rw [if_pos hp] at h
      cases h
      simp
    · rw [if_neg hp] at h
      rcases Option.map_eq_some'.mp h with ⟨j, hj, rfl⟩
      have := ih hj
      simp only [List.length_cons]
      omega

theorem jsArrayIndexOf_eq_of_some {l : List Int} {x : Int} {i : Nat}
    (h : jsFindIdx (fun a => a == x) l = some i) : jsArrayIndexOf l x = (i : Int) := by
  unfold jsArrayIndexOf
  rw [h]

theorem jsArrayIndexOf_eq_of_none {l : List Int} {x : Int}
    (h : jsFindIdx (fun a => a == x) l = none) : jsArrayIndexOf l x = -1 := by
  unfold jsArrayIndexOf
  rw [h]

theorem jsArrayIndexOf_bound (l : List Int) (x : Int) :
    jsArrayIndexOf l x = -1 ∨
      (0 ≤ jsArrayIndexOf l x ∧ jsArrayIndexOf l x < (l.length : Int)) := by
  cases h : jsFindIdx (fun a => a == x) l with
  | none => exact Or.inl (jsArrayIndexOf_eq_of_none h)
  | some i =>
    right
    rw [jsArrayIndexOf_eq_of_some h]
    have := jsFindIdx_lt_length h
    exact ⟨Int.ofNat_nonneg i, by exact_mod_cast this⟩

theorem openerIndex_bound (tabIds : List Int) (opener : Option Int) :
    openerIndex tabIds opener = -1 ∨
      (0 ≤ openerIndex tabIds opener ∧ openerIndex tabIds opener < (tabIds.length : Int)) := by
  cases opener with
  | none => exact Or.inl rfl
  | some n =>
    by_cases hn : n = 0
    · left
      simp [openerIndex, hn]
    · have he : openerIndex tabIds (some n) = jsArrayIndexOf tabIds n := by
        simp [openerIndex, hn]
      rw [he]
      exact jsArrayIndexOf_bound tabIds n

theorem digitChar_ne_newline {m : Nat} (hm : m < 10) : Nat.digitChar m ≠ '\n' := by
  interval_cases m <;> decide

theorem toDigitsCore_ne_newline :
    ∀ (fuel n : Nat) (ds : List Char), (∀ c ∈ ds, c ≠ '\n') →
      ∀ c ∈ Nat.toDigitsCore 10 fuel n ds, c ≠ '\n' := by
  intro fuel
  induction fuel with
  | zero =>
    intro n ds h c hc
    exact h c hc
  | succ fuel ih =>
    intro n ds h c hc
    have hmod : n % 10 < 10 := Nat.mod_lt n (by norm_num)
    simp only [Nat.toDigitsCore] at hc
    split at hc
    · rcases List.mem_cons.mp hc with rfl | hmem
      · exact digitChar_ne_newline hmod
      · exact h c hmem
    · refine ih (n / 10) (Nat.digitChar (n % 10) :: ds) ?_ c hc
      intro c' hc'
      rcases List.mem_cons.mp hc' with rfl | hmem
      · exact digitChar_ne_newline hmod
      · exact h c' hmem

theorem newline_not_mem_natRepr (n : Nat) : '\n' ∉ (Nat.repr n).data := by
  intro h
  have hd : (Nat.repr n).data = Nat.toDigits 10 n := rfl
  rw [hd] at h
  unfold Nat.toDigits at h
  exact toDigitsCore_ne_newline (n + 1) n [] (by intro c hc; cases hc) '\n' h rfl

theorem newline_not_mem_intToString (i : Int) : '\n' ∉ (toString i).data := by
  have ht : toString i = Int.repr i := rfl
  rw [ht]
  cases i with
  | ofNat m => exact newline_not_mem_natRepr m
  | negSucc m =>
    show '\n' ∉ ("-" ++ Nat.repr (m + 1)).data
    rw [String.data_append]
    intro h
    rcases List.mem_append.mp h with h1 | h2
    · exact absurd h1 (by decide)
    · exact newline_not_mem_natRepr _ h2

theorem newline_not_mem_boolToString (b : Bool) : '\n' ∉ (toString b).data := by
  cases b <;> decide

theorem windowSignatureLine_no_newline (tabIds : List Int) (tab : TabRecord)
    (h : '\n' ∉ tab.cookieStoreId.data) :
    '\n' ∉ (windowSignatureLine tabIds tab).data := by
  unfold windowSignatureLine
  intro hmem
  simp only [String.data_append, List.mem_append] at hmem
  rcases hmem with (((((h1 | h1) | h1) | h1) | h1) | h1) | h1
  · exact newline_not_mem_intToString _ h1
  · exact absurd h1 (by decide)
  · exact h h1
  · exact absurd h1 (by decide)
  · exact newline_not_mem_boolToString _ h1
  · exact absurd h1 (by decide)
  · exact newline_not_mem_boolToString _ h1

theorem cookieStoreIdValue_contextualIdentityMatch (classes : String) :
    cookieStoreIdValue (contextualIdentityMatch classes) =
      "contextual-identity-firefox-default" := by
  unfold contextualIdentityMatch
  split <;> rfl

theorem option_isSome_map (f : α → β) (o : Option α) : (o.map f).isSome = o.isSome := by
  cases o <;> rfl

theorem parseCachedTab_isSome_iff (e : CachedTabElement) :
    (parseCachedTab e).isSome = true ↔
      ((attrMatch e.idAttr).isSome = true ∧ (attrMatch e.classAttr).isSome = true) := by
  unfold parseCachedTab
  cases attrMatch e.idAttr <;> cases attrMatch e.classAttr <;> simp

theorem parseCachedTab_cookieStoreId {e : CachedTabElement} {t : ParsedCachedTab}
    (h : parseCachedTab e = some t) :
    t.cookieStoreId = "contextual-identity-firefox-default" := by
  unfold parseCachedTab at h
  cases h1 : attrMatch e.idAttr with
  | none => rw [h1] at h; exact absurd h (by simp)
  | some idStr =>
    rw [h1] at h
    cases h2 : attrMatch e.classAttr with
    | none => rw [h2] at h; exact absurd h (by simp)
    | some classes =>
      rw [h2] at h
      have ht := Option.some.inj h
      rw [← ht]
      exact cookieStoreIdValue_contextualIdentityMatch classes

theorem parseCachedTabs_isSome_iff (es : List CachedTabElement) :
    (parseCachedTabs es).isSome = true ↔ ∀ e ∈ es, (parseCachedTab e).isSome = true := by
  induction es with
  | nil => simp [parseCachedTabs]
  | cons e rest ih =>
    rw [parseCachedTabs]
    cases h : parseCachedTab e with
    | none => simp [h]
    | some t =>
      rw [option_isSome_map]
      simp only [List.mem_cons]
      constructor
      · intro hs a ha
        rcases ha with rfl | ha
        · rw [h]; rfl
        · exact (ih.mp hs) a ha
      · intro hall
        exact ih.mpr (fun a ha => hall a (Or.inr ha))

theorem parseCachedTabs_mem {es : List CachedTabElement} {ts : List ParsedCachedTab}
    (h : parseCachedTabs es = some ts) :
    ∀ t ∈ ts, ∃ e ∈ es, parseCachedTab e = some t := by
  induction es generalizing ts with
  | nil =>
    rw [parseCachedTabs] at h
    cases h
    intro t ht
    exact absurd ht (by simp)
  | cons e rest ih =>
    rw [parseCachedTabs] at h
    cases h1 : parseCachedTab e with
    | none => rw [h1] at h; exact absurd h (by simp)
    | some t0 =>
      rw [h1] at h
      rcases Option.map_eq_some'.mp h with ⟨ts', hts', rfl⟩
      intro t ht
      rcases List.mem_cons.mp ht with rfl | ht'
      · exact ⟨e, List.mem_cons_self e rest, h1⟩
      · rcases ih hts' t ht' with ⟨e', he', hpe'⟩
        exact ⟨e', List.mem_cons_of_mem e he', hpe'⟩

/-! ### Claim theorems for the signature codec -/

/-- C2 (code bug).  The round-trip property fails: serializing a single
ordinary tab record (id 1, no opener, cookie store `firefox-default`) per
the spec's markup grammar and re-deriving the signature yields a
`cookieStoreId` component of `contextual-identity-firefox-default`, while
`getWindowSignature` emits the record's raw `firefox-default`, so the two
signatures differ.  The cause is in `signatureFromTabsCache` (source lines
55/69): the regex `/\bcontextual-identity-[^\s]+\b/` has no capturing
group, yet the code reads capture group `[1]`, which is always `undefined`,
so the `|| 'contextual-identity-firefox-default'` default is taken for
every element. -/
theorem claim_C2_roundtrip_fails_on_cookieStore :
    getWindowSignature [⟨1, none, "firefox-default", false, false⟩] =
      "-1,firefox-default,false,false" ∧
    signatureFromTabsCache [serializeTab ⟨1, none, "firefox-default", false, false⟩] =
      some "-1,contextual-identity-firefox-default,false,false" ∧
    signatureFromTabsCache [serializeTab ⟨1, none, "firefox-default", false, false⟩] ≠
      some (getWindowSignature [⟨1, none, "firefox-default", false, false⟩]) := by
  refine ⟨by decide, by decide, by decide⟩

/-- C6, counterexample to the claim as stated: an element whose `class`
attribute is present but empty (so the `class="([^"]+)"` matcher returns
`null`) makes `signatureFromTabsCache` throw a `TypeError`
(`matched.match(classesMatcher)[1]` dereferences `null`) instead of
returning a best-effort signature. -/
theorem claim_C6_counterexample :
    signatureFromTabsCache [⟨some "1", some "", none⟩] = none := by
  decide

/-- C6, amended.  `signatureFromTabsCache` returns a (best-effort)
signature exactly when every matched element has a non-empty id attribute
and a non-empty class attribute; malformed parent-reference attributes and
unrecognized contextual-identity classes never make it raise (they degrade
to `-1` / the default container value), but a missing or empty id or class
attribute raises a `TypeError`. -/
theorem claim_C6_raises_iff_missing_id_or_class (es : List CachedTabElement) :
    (signatureFromTabsCache es).isSome = true ↔
      ∀ e ∈ es, (attrMatch e.idAttr).isSome = true ∧ (attrMatch e.classAttr).isSome = true := by
  have hs : (signatureFromTabsCache es).isSome = (parseCachedTabs es).isSome := by
    unfold signatureFromTabsCache
    cases parseCachedTabs es <;> rfl
  rw [hs, parseCachedTabs_isSome_iff]
  constructor
  · intro h e he
    exact (parseCachedTab_isSome_iff e).mp (h e he)
  · intro h e he
    exact (parseCachedTab_isSome_iff e).mpr (h e he)

/-- C8.  `getWindowSignature L` is the newline-join of exactly `len L`
lines, one per record in input order, and the parent component of each line
(`openerIndex`) is `-1` or a valid zero-based index into `L`; when no
`cookieStoreId` contains a newline, each joined line is itself
newline-free. -/
theorem claim_C8_signature_shape (L : List TabRecord) :
    getWindowSignature L =
      String.intercalate "\n" (L.map (fun tab => windowSignatureLine (L.map (·.id)) tab)) ∧
    (L.map (fun tab => windowSignatureLine (L.map (·.id)) tab)).length = L.length ∧
    (∀ tab ∈ L, openerIndex (L.map (·.id)) tab.openerTabId = -1 ∨
      (0 ≤ openerIndex (L.map (·.id)) tab.openerTabId ∧
        openerIndex (L.map (·.id)) tab.openerTabId < (L.length : Int))) ∧
    ((∀ tab ∈ L, '\n' ∉ tab.cookieStoreId.data) →
      ∀ line ∈ L.map (fun tab => windowSignatureLine (L.map (·.id)) tab),
        '\n' ∉ line.data) := by
  refine ⟨rfl, by simp, ?_, ?_⟩
  · intro tab _
    have h := openerIndex_bound (L.map (·.id)) tab.openerTabId
    rcases h with h | ⟨h1, h2⟩
    · exact Or.inl h
    · right
      refine ⟨h1, ?_⟩
      rwa [List.length_map] at h2
  · intro h line hline
    rcases List.mem_map.mp hline with ⟨tab, htab, rfl⟩
    exact windowSignatureLine_no_newline _ tab (h tab htab)

/-- C8, witness at a concrete two-record list (second tab opened by the
first): the signature is the join of its two per-tab lines, the second
tab's parent component is a valid index, and both lines are
newline-free. -/
theorem claim_C8_witness :
    (getWindowSignature
        [⟨1, none, "firefox-default", false, false⟩,
         ⟨2, some 1, "firefox-default", false, false⟩] =
      String.intercalate "\n"
        (([⟨1, none, "firefox-default", false, false⟩,
           ⟨2, some 1, "firefox-default", false, false⟩] : List TabRecord).map
          (fun tab =>
            windowSignatureLine
              (([⟨1, none, "firefox-default", false, false⟩,
                 ⟨2, some 1, "firefox-default", false, false⟩] : List TabRecord).map (·.id))
              tab))) ∧
    (openerIndex [1, 2] (some 1) = -1 ∨
      (0 ≤ openerIndex [1, 2] (some 1) ∧ openerIndex [1, 2] (some 1) < ((2 : Nat) : Int))) ∧
    (∀ line ∈ ([⟨1, none, "firefox-default", false, false⟩,
         ⟨2, some 1, "firefox-default", false, false⟩] : List TabRecord).map
          (fun tab =>
            windowSignatureLine
              (([⟨1, none, "firefox-default", false, false⟩,
                 ⟨2, some 1, "firefox-default", false, false⟩] : List TabRecord).map (·.id))
              tab),
        '\n' ∉ line.data) := by
  refine ⟨(claim_C8_signature_shape _).1, ?_, ?_⟩
  · exact (claim_C8_signature_shape
      [⟨1, none, "firefox-default", false, false⟩,
       ⟨2, some 1, "firefox-default", false, false⟩]).2.2.1
      ⟨2, some 1, "firefox-default", false, false⟩ (by decide)
  · exact (claim_C8_signature_shape
      [⟨1, none, "firefox-default", false, false⟩,
       ⟨2, some 1, "firefox-default", false, false⟩]).2.2.2 (by decide)

/-- C9.  Both signature derivations treat a falsy parent reference as
parentless: `getWindowSignature` maps an absent `openerTabId` *and* an
`openerTabId` of `0` to parent component `-1` (even when a tab with id `0`
is in the list — third conjunct), and `signatureFromTabsCache` maps an
absent parent attribute, an unparseable one (`NaN`) and a parsed `0` to
`-1` likewise (fourth conjunct shows the `NaN` case concretely). -/
theorem claim_C9_falsy_parent_ids :
    (∀ (tabIds : List Int) (opener : Option Int),
      opener = none ∨ opener = some 0 → openerIndex tabIds opener = -1) ∧
    (∀ (tabIds : List (Option Int)) (parentId : Option (Option Int)),
      parentId = none ∨ parentId = some none ∨ parentId = some (some 0) →
        parsedParentIndex tabIds parentId = -1) ∧
    getWindowSignature
        [⟨0, none, "firefox-default", false, false⟩,
         ⟨5, some 0, "firefox-default", false, false⟩] =
      "-1,firefox-default,false,false\n-1,firefox-default,false,false" ∧
    parsedParentIndex [some 0, some 5] (some (parseIntJS "zzz")) = -1 := by
  refine ⟨?_, ?_, by decide, by decide⟩
  · rintro tabIds opener (rfl | rfl) <;> rfl
  · rintro tabIds parentId (rfl | rfl | rfl) <;> rfl

/-- C9, witness: the two universally quantified conjuncts applied at
concrete falsy parent references, with a tab of id `0` present in the id
lists. -/
theorem claim_C9_witness :
    openerIndex [0, 5] (some 0) = -1 ∧
      parsedParentIndex [some 0, some 5] (some (some 0)) = -1 :=
  ⟨claim_C9_falsy_parent_ids.1 [0, 5] (some 0) (Or.inr rfl),
   claim_C9_falsy_parent_ids.2.1 [some 0, some 5] (some (some 0)) (Or.inr (Or.inr rfl))⟩

/-- C10.  Whenever `signatureFromTabsCache` succeeds, every parsed element's
`cookieStoreId` is exactly `contextual-identity-firefox-default`, regardless
of the contextual-identity class actually present in the element's class
attribute: the matcher `/\bcontextual-identity-[^\s]+\b/` has no capturing
group, so the capture the code reads (`cookieStoreId[1]`) never contributes
a container name. -/
theorem claim_C10_cookieStore_always_default (es : List CachedTabElement)
    (ts : List ParsedCachedTab) (h : parseCachedTabs es = some ts) :
    signatureFromTabsCache es =
      some (String.intercalate "\n"
        (ts.map (fun t => parsedSignatureLine (ts.map (·.id)) t))) ∧
    ∀ t ∈ ts, t.cookieStoreId = "contextual-identity-firefox-default" := by
  constructor
  · unfold signatureFromTabsCache
    rw [h]
  · intro t ht
    rcases parseCachedTabs_mem h t ht with ⟨e, _, hpe⟩
    exact parseCachedTab_cookieStoreId hpe

/-- C10, witness: an element carrying the non-default container class
`contextual-identity-firefox-container-1` still parses to the default
cookie-store component. -/
theorem claim_C10_witness :
    signatureFromTabsCache
        [⟨some "1", some "contextual-identity-firefox-container-1", none⟩] =
      some (String.intercalate "\n"
        (([⟨some 1, "contextual-identity-firefox-default", none, false, false⟩] :
            List ParsedCachedTab).map
          (fun t => parsedSignatureLine [some 1] t))) ∧
    (⟨some 1, "contextual-identity-firefox-default", none, false, false⟩ :
        ParsedCachedTab).cookieStoreId = "contextual-identity-firefox-default" := by
  have h := claim_C10_cookieStore_always_default
    [⟨some "1", some "contextual-identity-firefox-container-1", none⟩]
    [⟨some 1, "contextual-identity-firefox-default", none, false, false⟩] (by decide)
  exact ⟨h.1, h.2 _ (by decide)⟩


/-! ### Lemmas about the restoration engine -/

theorem jsSliceLast_append (l m : List α) : jsSliceLast (l ++ m) m.length = m := by
  unfold jsSliceLast
  rw [List.length_append]
  have h : l.length + m.length - m.length = l.length := by omega
  rw [h, List.drop_left]

theorem restorePostProcess_mismatch {tabElements : List TabElement}
    {tabs : List TabRecord} (h : tabElements.length ≠ tabs.length) :
    ∀ prefixChildren, restorePostProcess prefixChildren tabElements tabs =
      .ok [] { container := none } := by
  intro prefixChildren
  unfold restorePostProcess
  rw [if_pos h]

/-! ### Claim theorems for the restoration engine and the fixup pass -/

/-- C3, counterexample to the claim as stated: tail restoration with
`offset = 1` on a 3-tab window whose live DOM is missing the element of tab
id 2 (the tab at position `offset`) does **not** return an empty result:
`Tab.get(2)` yields nothing and line 96 (`.$TST.element` on it) throws a
`TypeError`.  The document is unchanged at the throw (the failure happens
before `deleteContents`), but an error *is* raised, contradicting the
claimed empty-result-no-error behavior. -/
theorem claim_C3_counterexample :
    restoreTabsFromCacheInternal
        ⟨1,
         [⟨1, none, "firefox-default", false, false⟩,
          ⟨2, none, "firefox-default", false, false⟩,
          ⟨3, none, "firefox-default", false, false⟩],
         ⟨[⟨2⟩, ⟨3⟩]⟩, 1, false⟩
        ⟨some ⟨[⟨1⟩, ⟨3⟩]⟩⟩ =
      RestoreResult.thrown ⟨some ⟨[⟨1⟩, ⟨3⟩]⟩⟩ := by
  decide

/-- C3, amended.  In tail-restoration mode, when the expected boundary tab
(the record at position `offset`, or the last record) cannot be located in
the live DOM, `restoreTabsFromCacheInternal` raises a `TypeError` before
performing any deletion or insertion — the document is unchanged at the
throw — rather than returning an empty result; an empty result without an
error occurs only for a missing container or one with at most `offset`
children. -/
theorem claim_C3_missing_boundary_throws (params : RestoreParams) (doc : Doc)
    (c : Container) (t0 tLast : TabRecord)
    (hoff : 0 < params.offset)
    (hc : doc.container = some c)
    (hlen : params.offset < c.children.length)
    (h0 : (params.tabs.drop params.offset).head? = some t0)
    (hl : (params.tabs.drop params.offset).getLast? = some tLast)
    (hmiss : findTabIndex c.children t0.id = none ∨
      findTabIndex c.children tLast.id = none) :
    restoreTabsFromCacheInternal params doc = RestoreResult.thrown doc := by
  have hnotle : ¬ c.children.length ≤ params.offset := not_le.mpr hlen
  rcases hmiss with hfind | hfind
  · simp [restoreTabsFromCacheInternal, hc, h0, hl, hfind, hoff, hnotle]
  · cases hfind0 : findTabIndex c.children t0.id with
    | none => simp [restoreTabsFromCacheInternal, hc, h0, hl, hfind0, hoff, hnotle]
    | some i => simp [restoreTabsFromCacheInternal, hc, h0, hl, hfind0, hfind, hoff, hnotle]

/-- C3, witness: the amended theorem applied to a 3-tab window whose live
DOM is missing the element of the *last* boundary tab (id 3). -/
theorem claim_C3_witness :
    restoreTabsFromCacheInternal
        ⟨1,
         [⟨1, none, "firefox-default", false, false⟩,
          ⟨2, none, "firefox-default", false, false⟩,
          ⟨3, none, "firefox-default", false, false⟩],
         ⟨[⟨2⟩, ⟨3⟩]⟩, 1, false⟩
        ⟨some ⟨[⟨1⟩, ⟨2⟩]⟩⟩ =
      RestoreResult.thrown ⟨some ⟨[⟨1⟩, ⟨2⟩]⟩⟩ :=
  claim_C3_missing_boundary_throws _ _ ⟨[⟨1⟩, ⟨2⟩]⟩
    ⟨2, none, "firefox-default", false, false⟩
    ⟨3, none, "firefox-default", false, false⟩
    (by decide) rfl (by decide) (by decide) (by decide) (Or.inr (by decide))

/-- C4.  In both restoration modes, when the restored element count
disagrees with the count of tab records for the affected range,
`restoreTabsFromCacheInternal` removes the container from the document
(`doc.container = none`) and returns the empty element list as a normal
(non-thrown) result.  First conjunct: full restoration (`offset = 0`),
where the restored set is the blob's items and the records are all of
`params.tabs`.  Second conjunct: tail restoration (`offset > 0`) with both
boundary tabs present and a non-empty blob, where the restored set is again
the blob's items and the records are those from `offset` on. -/
theorem claim_C4_count_mismatch_returns_empty :
    (∀ (params : RestoreParams) (doc : Doc),
      params.offset = 0 →
      params.cache.items.length ≠ params.tabs.length →
      restoreTabsFromCacheInternal params doc =
        RestoreResult.ok [] { container := none }) ∧
    (∀ (params : RestoreParams) (doc : Doc) (c : Container)
        (t0 tLast : TabRecord) (i j : Nat),
      0 < params.offset →
      doc.container = some c →
      params.offset < c.children.length →
      (params.tabs.drop params.offset).head? = some t0 →
      (params.tabs.drop params.offset).getLast? = some tLast →
      findTabIndex c.children t0.id = some i →
      findTabIndex c.children tLast.id = some j →
      params.cache.items ≠ [] →
      params.cache.items.length ≠ (params.tabs.drop params.offset).length →
      restoreTabsFromCacheInternal params doc =
        RestoreResult.ok [] { container := none }) := by
  constructor
  · intro params doc hoff hmis
    simp [restoreTabsFromCacheInternal, hoff, restorePostProcess_mismatch hmis]
  · intro params doc c t0 tLast i j hoff hc hlen h0 hl hf0 hfl hne hmis
    have hnotle : ¬ c.children.length ≤ params.offset := not_le.mpr hlen
    have hempty : params.cache.items.isEmpty = false := by
      cases hi : params.cache.items with
      | nil => exact absurd hi hne
      | cons a t => rfl
    simp [restoreTabsFromCacheInternal, hc, h0, hl, hf0, hfl, hoff, hnotle, hempty,
      jsSliceLast_append, restorePostProcess_mismatch hmis]

/-- C4, witness: full restoration of a blob with 3 items against 2 records
(the spec's §8 scenario), and tail restoration with `offset = 1` of a
1-item blob against 2 remaining records with both boundary elements
present — both remove the container and return `[]`. -/
theorem claim_C4_witness :
    restoreTabsFromCacheInternal
        ⟨1,
         [⟨1, none, "firefox-default", false, false⟩,
          ⟨2, none, "firefox-default", false, false⟩],
         ⟨[⟨1⟩, ⟨2⟩, ⟨3⟩]⟩, 0, false⟩ ⟨none⟩ =
      RestoreResult.ok [] ⟨none⟩ ∧
    restoreTabsFromCacheInternal
        ⟨1,
         [⟨1, none, "firefox-default", false, false⟩,
          ⟨2, none, "firefox-default", false, false⟩,
          ⟨3, none, "firefox-default", false, false⟩],
         ⟨[⟨9⟩]⟩, 1, false⟩ ⟨some ⟨[⟨1⟩, ⟨2⟩, ⟨3⟩]⟩⟩ =
      RestoreResult.ok [] ⟨none⟩ :=
  ⟨claim_C4_count_mismatch_returns_empty.1
      ⟨1,
       [⟨1, none, "firefox-default", false, false⟩,
        ⟨2, none, "firefox-default", false, false⟩],
       ⟨[⟨1⟩, ⟨2⟩, ⟨3⟩]⟩, 0, false⟩ ⟨none⟩ rfl (by decide),
   claim_C4_count_mismatch_returns_empty.2
      ⟨1,
       [⟨1, none, "firefox-default", false, false⟩,
        ⟨2, none, "firefox-default", false, false⟩,
        ⟨3, none, "firefox-default", false, false⟩],
       ⟨[⟨9⟩]⟩, 1, false⟩ ⟨some ⟨[⟨1⟩, ⟨2⟩, ⟨3⟩]⟩⟩ ⟨[⟨1⟩, ⟨2⟩, ⟨3⟩]⟩
      ⟨2, none, "firefox-default", false, false⟩
      ⟨3, none, "firefox-default", false, false⟩ 1 2
      (by decide) rfl (by decide) (by decide) (by decide) (by decide) (by decide)
      (by decide) (by decide)⟩

/-- C5 (code bug).  Every progress value reported during the fixup pass
(`Math.round(count / maxCount * 33) + 33` for `1 ≤ count ≤ maxCount`) lies
in `[33, 66]`: the shared counter maps the two phases onto the *middle*
third of the range, and the final report at `count = maxCount` is `66`, not
100 (third conjunct: for one element, `maxCount = 2`, the final value is
`66`; fourth conjunct: the end of phase 1 reports `50`, not the `2/3` the
source comment announces).  This contradicts the claimed mapping onto the
second two-thirds (33–100) with progress approaching 100. -/
theorem claim_C5_progress_capped_at_66 :
    (∀ count maxCount : Nat, 0 < maxCount → count ≤ maxCount →
      33 ≤ fixupProgress count maxCount ∧ fixupProgress count maxCount ≤ 66) ∧
    fixupProgress 2 2 = 66 ∧ fixupProgress 1 2 = 50 := by
  refine ⟨?_, by norm_num [fixupProgress], by norm_num [fixupProgress]⟩
  intro c m hm hc
  unfold fixupProgress
  have hq0 : (0 : ℚ) ≤ (c : ℚ) / (m : ℚ) := by positivity
  have hq1 : (c : ℚ) / (m : ℚ) ≤ 1 := by
    rw [div_le_one (by exact_mod_cast hm)]
    exact_mod_cast hc
  constructor
  · have hf : (0 : Int) ≤ ⌊(c : ℚ) / (m : ℚ) * 33 + 1 / 2⌋ := by
      apply Int.le_floor.mpr
      push_cast
      nlinarith
    omega
  · have hf : ⌊(c : ℚ) / (m : ℚ) * 33 + 1 / 2⌋ < 34 := by
      apply Int.floor_lt.mpr
      push_cast
      nlinarith
    omega

/-- C5, witness: the bound applied at the final counter value of a
one-element fixup pass (`count = maxCount = 2`). -/
theorem claim_C5_witness :
    33 ≤ fixupProgress 2 2 ∧ fixupProgress 2 2 ≤ 66 :=
  claim_C5_progress_capped_at_66.1 2 2 (by norm_num) (by norm_num)

end DomCache
